import Mathlib

set_option maxRecDepth 4000

/-!
Verification of the page-table-walk / contiguity-report kernel module drafts
in src/hello_module.  The repository holds two near-duplicate drafts:

* helloModule.c — symbol procReport_init: inline scan; the first resolved
  page is tagged non-contiguous at the moment it is seen (a first_page flag).
* procReport.c — symbols virt2phys / count_allocated_pages / generate_report:
  the scan uses prev_phys == 0 as the "no predecessor yet" marker and adds
  the first page's non-contiguous tick after the scan, guarded by
  contig + noncontig < total; its virt2phys additionally maps the physical
  address 70368744173568 to 0 (the unmapped encoding).

Machine integers (C unsigned long) are modelled as Nat with explicit
reduction modulo 2^64 at the points where the C arithmetic can wrap.
Bit operations on page-aligned quantities are written arithmetically:
for x < 2^64, x & PAGE_MASK = x / 4096 * 4096 (clearing the low 12 bits)
and a | b = a + b when a is page-aligned and b < 4096 (disjoint bits).
-/

/-- The uniform base page size (4 KiB), the kernel's PAGE_SIZE. -/
def PAGE_SIZE : Nat := 4096

/-- Modulus of the C unsigned long (64-bit) arithmetic. -/
def WORD : Nat := 2 ^ 64

/-- Outcome of the five-level page-table walk for one (mm, vaddr) query:
the entries the walk would visit, as each draft's virt2phys reads them.
A level flag is true exactly when the corresponding C test
(pXd_none(*e) || pXd_bad(*e)) is false.  The leaf is recorded in both
views the two drafts take of it: helloModule.c reads pte_present and
pte_val; procReport.c reads pte_page (none models a NULL struct page;
some pfn carries the page frame number, so that page_to_phys yields
pfn * PAGE_SIZE). -/
structure PageWalk where
  pgd_ok : Bool
  p4d_ok : Bool
  pud_ok : Bool
  pmd_ok : Bool
  pte_mapped : Bool
  pte_present : Bool
  pte_val : Nat
  pte_page : Option Nat
deriving Repr, DecidableEq

/-- One VMA: the half-open virtual range [vm_start, vm_end). -/
structure Region where
  vm_start : Nat
  vm_end : Nat
deriving Repr, DecidableEq

/-- A process's memory descriptor (mm_struct): its VMA list (mmap, where the
empty list models a NULL mmap pointer) and, for each virtual address, the
page-table entries the walk would traverse. -/
structure MM where
  mmap : List Region
  walkOf : Nat → PageWalk

/-- A process (task_struct): pid, comm and an optional memory descriptor
(kernel tasks have mm = none). -/
structure TaskStruct where
  pid : Int
  comm : String
  mm : Option MM

/-- Per-process counters (total_pages, contig_pages, noncontig_pages). -/
structure Counters where
  total : Nat
  contig : Nat
  noncontig : Nat
deriving Repr, DecidableEq

/-- Field-wise addition of counters (the grand-total accumulation). -/
def Counters.add (a b : Counters) : Counters :=
  ⟨a.total + b.total, a.contig + b.contig, a.noncontig + b.noncontig⟩

/-- The all-zero counters. -/
def Counters.zero : Counters := ⟨0, 0, 0⟩

/-- Field-wise sum of a list of counters. -/
def sumCounters (l : List Counters) : Counters :=
  l.foldl Counters.add Counters.zero

/-- The addresses visited by the C loop
for (addr = vm_start; addr < vm_end; addr += PAGE_SIZE):
vm_start, vm_start + PAGE_SIZE, ... while < vm_end, i.e.
ceil((vm_end - vm_start) / PAGE_SIZE) many addresses. -/
def pagesOf (s e : Nat) : List Nat :=
  (List.range ((e - s + (PAGE_SIZE - 1)) / PAGE_SIZE)).map (fun k => s + PAGE_SIZE * k)

namespace HelloModule

/-- virt2phys from helloModule.c: the five-level walk; on full success the C
code computes (pte_val(*pte) & PAGE_MASK) | (vaddr & ~PAGE_MASK), i.e. the
pte value with its low 12 bits cleared, plus the intra-page offset of vaddr;
every failing level returns 0 immediately. -/
def virt2phys (w : PageWalk) (vaddr : Nat) : Nat :=
  if w.pgd_ok = false then 0
  else if w.p4d_ok = false then 0
  else if w.pud_ok = false then 0
  else if w.pmd_ok = false then 0
  else if w.pte_mapped = false then 0
  else if w.pte_present = false then 0
  else (w.pte_val % WORD) / PAGE_SIZE * PAGE_SIZE + vaddr % PAGE_SIZE

/-- The per-process loop state of procReport_init: the three counters,
prev_phys and the first_page flag.  prev_phys is uninitialised in the C
code but is written before it is ever read (the first_page branch). -/
structure ScanState where
  total : Nat
  contig : Nat
  noncontig : Nat
  prev_phys : Nat
  first_page : Bool
deriving Repr, DecidableEq

/-- One iteration of procReport_init's inner loop, for one translated page:
phys == 0 is skipped entirely; otherwise total is incremented, the first
resolved page counts as non-contiguous, and a later page counts as
contiguous iff prev_phys + PAGE_SIZE == phys (64-bit comparison);
prev_phys is then updated. -/
def step (s : ScanState) (phys : Nat) : ScanState :=
  if phys = 0 then s
  else
    let s1 : ScanState := { s with total := s.total + 1 }
    if s1.first_page then
      { s1 with noncontig := s1.noncontig + 1, first_page := false, prev_phys := phys }
    else if (s1.prev_phys + PAGE_SIZE) % WORD = phys then
      { s1 with contig := s1.contig + 1, prev_phys := phys }
    else
      { s1 with noncontig := s1.noncontig + 1, prev_phys := phys }

/-- Initial loop state of procReport_init: counters zero, first_page true. -/
def initState : ScanState := ⟨0, 0, 0, 0, true⟩

/-- The translation results of one process, in scan order: for every VMA in
mmap order and every page-aligned step inside it, the value virt2phys
returns (0 encodes unmapped). -/
def physSeq (mm : MM) : List Nat :=
  (mm.mmap.map (fun r =>
    (pagesOf r.vm_start r.vm_end).map (fun a => virt2phys (mm.walkOf a) a))).flatten

/-- The counters procReport_init's scan produces from a given sequence of
translation results. -/
def countList (l : List Nat) : Counters :=
  let s := l.foldl step initState
  ⟨s.total, s.contig, s.noncontig⟩

/-- The per-process body of procReport_init: counters start at zero; if the
task has an mm its VMAs are scanned, otherwise nothing is counted. -/
def countTask (t : TaskStruct) : Counters :=
  match t.mm with
  | none => Counters.zero
  | some mm => countList (physSeq mm)

/-- procReport_init's report loop: for every task with pid > 650 a row
(pid, comm, counters) is emitted and the counters are added to the grand
totals; other tasks are ignored. -/
def procReport_init (tasks : List TaskStruct) : List (Int × String × Counters) × Counters :=
  tasks.foldl
    (fun acc task =>
      if decide (650 < task.pid) then
        (acc.1 ++ [(task.pid, task.comm, countTask task)], acc.2.add (countTask task))
      else acc)
    ([], Counters.zero)

end HelloModule

namespace ProcReport

/-- virt2phys from procReport.c: the same four directory levels and
pte_offset_map test; at the leaf it reads pte_page (NULL returns 0), takes
phys_addr = page_to_phys(page) = pfn * PAGE_SIZE, and maps the sentinel
value 70368744173568 to 0 before returning. -/
def virt2phys (w : PageWalk) (vaddr : Nat) : Nat :=
  if w.pgd_ok = false then 0
  else if w.p4d_ok = false then 0
  else if w.pud_ok = false then 0
  else if w.pmd_ok = false then 0
  else if w.pte_mapped = false then 0
  else
    match w.pte_page with
    | none => 0
    | some pfn =>
        let phys_addr := pfn * PAGE_SIZE % WORD
        if phys_addr = 70368744173568 then 0 else phys_addr

/-- The loop state of count_allocated_pages: the three counters and
prev_phys, which starts at 0 and doubles as the "no predecessor yet"
marker. -/
structure ScanState where
  total : Nat
  contig : Nat
  noncontig : Nat
  prev_phys : Nat
deriving Repr, DecidableEq

/-- Initial state of count_allocated_pages: everything 0. -/
def initState : ScanState := ⟨0, 0, 0, 0⟩

/-- One iteration of count_allocated_pages' inner loop (with both the contig
and noncontig out-parameters present, as generate_report passes them):
phys == 0 is skipped; otherwise total is incremented, and if prev_phys != 0
the page is bucketed by phys == prev_phys + PAGE_SIZE (64-bit comparison);
prev_phys is then updated in every resolved case. -/
def step (s : ScanState) (phys : Nat) : ScanState :=
  if phys = 0 then s
  else
    let s1 : ScanState := { s with total := s.total + 1 }
    let s2 : ScanState :=
      if s1.prev_phys ≠ 0 then
        if phys = (s1.prev_phys + PAGE_SIZE) % WORD then
          { s1 with contig := s1.contig + 1 }
        else
          { s1 with noncontig := s1.noncontig + 1 }
      else s1
    { s2 with prev_phys := phys }

/-- The post-scan adjustment of count_allocated_pages: if at least one page
was counted but contig + noncontig is still short of total, the first
resolved page is charged as non-contiguous. -/
def adjust (s : ScanState) : Counters :=
  if 0 < s.total ∧ s.contig + s.noncontig < s.total then
    ⟨s.total, s.contig, s.noncontig + 1⟩
  else
    ⟨s.total, s.contig, s.noncontig⟩

/-- The translation results of one process under procReport.c's virt2phys,
in scan order. -/
def physSeq (mm : MM) : List Nat :=
  (mm.mmap.map (fun r =>
    (pagesOf r.vm_start r.vm_end).map (fun a => virt2phys (mm.walkOf a) a))).flatten

/-- The counters count_allocated_pages produces from a given sequence of
translation results: the loop followed by the post-scan adjustment. -/
def countList (l : List Nat) : Counters :=
  adjust (l.foldl step initState)

/-- count_allocated_pages for one task: counters are zeroed; the VMA loops
run only when the task has an mm whose mmap is non-NULL; the post-scan
adjustment runs unconditionally. -/
def count_allocated_pages (t : TaskStruct) : Counters :=
  match t.mm with
  | none => adjust initState
  | some mm =>
      if mm.mmap = [] then adjust initState
      else countList (physSeq mm)

/-- generate_report: for every task with pid > 650 a row (pid, comm,
counters) is emitted and the counters accumulate into the grand totals. -/
def generate_report (tasks : List TaskStruct) : List (Int × String × Counters) × Counters :=
  tasks.foldl
    (fun acc task =>
      if decide (650 < task.pid) then
        (acc.1 ++ [(task.pid, task.comm, count_allocated_pages task)],
         acc.2.add (count_allocated_pages task))
      else acc)
    ([], Counters.zero)

end ProcReport

/-- Loop invariant of procReport_init's scan: before the first resolved page
all counters are zero; afterwards the buckets partition the total and the
non-contiguous bucket holds at least the first page. -/
def HelloModule.Inv (s : HelloModule.ScanState) : Prop :=
  (s.first_page = true → s.total = 0 ∧ s.contig = 0 ∧ s.noncontig = 0) ∧
  (s.first_page = false → s.total = s.contig + s.noncontig ∧ 1 ≤ s.noncontig ∧ 1 ≤ s.total)

/-- Simulation relation between procReport_init's inline scan state and
count_allocated_pages' loop state: totals and contiguous counts agree;
before the first resolved page both are pristine, afterwards the inline
variant is exactly one non-contiguous tick ahead (the tick the post-scan
adjustment will add). -/
def Sim (a : HelloModule.ScanState) (b : ProcReport.ScanState) : Prop :=
  a.total = b.total ∧ a.contig = b.contig ∧
  ((a.first_page = true ∧ a.total = 0 ∧ a.contig = 0 ∧ a.noncontig = 0 ∧
      b.noncontig = 0 ∧ b.prev_phys = 0) ∨
   (a.first_page = false ∧ a.prev_phys = b.prev_phys ∧ b.prev_phys ≠ 0 ∧
      a.noncontig = b.noncontig + 1 ∧ b.total = b.contig + b.noncontig + 1))

def sampleWalk : PageWalk := ⟨true, true, true, true, true, true, 4096, some 1⟩

def sampleTask : TaskStruct :=
  ⟨700, "a", some ⟨[⟨0, 4096⟩], fun _ => sampleWalk⟩⟩

lemma hm_step_inv {s : HelloModule.ScanState} (p : Nat) (h : HelloModule.Inv s) :
    HelloModule.Inv (HelloModule.step s p) := by
  obtain ⟨t, c, n, pr, fp⟩ := s
  obtain ⟨h1, h2⟩ := h
  simp only [HelloModule.Inv, HelloModule.step] at *
  by_cases hp : p = 0
  · simp [hp]; exact ⟨h1, h2⟩
  · cases fp
    · obtain ⟨hs, hn, ht⟩ := h2 rfl
      by_cases hc : (pr + PAGE_SIZE) % WORD = p
      · simp [hp, hc]
        omega
      · simp [hp, hc]
        omega
    · obtain ⟨ha, hb, hcz⟩ := h1 rfl
      simp [hp, ha, hb, hcz]

lemma hm_foldl_inv : ∀ (l : List Nat) (s : HelloModule.ScanState),
    HelloModule.Inv s → HelloModule.Inv (l.foldl HelloModule.step s)
  | [], _, h => h
  | p :: l, s, h => hm_foldl_inv l (HelloModule.step s p) (hm_step_inv p h)

lemma hm_inv_initState : HelloModule.Inv HelloModule.initState := by
  simp [HelloModule.Inv, HelloModule.initState]

lemma hm_countList_spec (l : List Nat) :
    (HelloModule.countList l).contig + (HelloModule.countList l).noncontig
      = (HelloModule.countList l).total ∧
    (0 < (HelloModule.countList l).total → 1 ≤ (HelloModule.countList l).noncontig) := by
  have h := hm_foldl_inv l HelloModule.initState hm_inv_initState
  obtain ⟨h1, h2⟩ := h
  simp only [HelloModule.countList]
  cases hb : (l.foldl HelloModule.step HelloModule.initState).first_page
  · obtain ⟨hs, hn, ht⟩ := h2 hb
    constructor
    · omega
    · intro _; exact hn
  · obtain ⟨ha, hc, hd⟩ := h1 hb
    simp [ha, hc, hd]

lemma hm_step_zero (s : HelloModule.ScanState) : HelloModule.step s 0 = s := by
  simp [HelloModule.step]

lemma hm_step_first {s : HelloModule.ScanState} {p : Nat} (hp : p ≠ 0)
    (hf : s.first_page = true) :
    HelloModule.step s p = ⟨s.total + 1, s.contig, s.noncontig + 1, p, false⟩ := by
  obtain ⟨t, c, n, pr, fp⟩ := s
  simp only at hf
  subst hf
  simp [HelloModule.step, hp]

lemma hm_step_contig {s : HelloModule.ScanState} {p : Nat} (hp : p ≠ 0)
    (hf : s.first_page = false) (hc : (s.prev_phys + PAGE_SIZE) % WORD = p) :
    HelloModule.step s p = ⟨s.total + 1, s.contig + 1, s.noncontig, p, false⟩ := by
  obtain ⟨t, c, n, pr, fp⟩ := s
  simp only at hf hc
  subst hf
  simp [HelloModule.step, hp, hc]

lemma hm_step_noncontig {s : HelloModule.ScanState} {p : Nat} (hp : p ≠ 0)
    (hf : s.first_page = false) (hc : ¬ (s.prev_phys + PAGE_SIZE) % WORD = p) :
    HelloModule.step s p = ⟨s.total + 1, s.contig, s.noncontig + 1, p, false⟩ := by
  obtain ⟨t, c, n, pr, fp⟩ := s
  simp only at hf hc
  subst hf
  simp [HelloModule.step, hp, hc]

lemma pr_step_zero (s : ProcReport.ScanState) : ProcReport.step s 0 = s := by
  simp [ProcReport.step]

lemma pr_step_fresh {s : ProcReport.ScanState} {p : Nat} (hp : p ≠ 0)
    (hf : s.prev_phys = 0) :
    ProcReport.step s p = ⟨s.total + 1, s.contig, s.noncontig, p⟩ := by
  obtain ⟨t, c, n, pr⟩ := s
  simp only at hf
  subst hf
  simp [ProcReport.step, hp]

lemma pr_step_contig {s : ProcReport.ScanState} {p : Nat} (hp : p ≠ 0)
    (hf : s.prev_phys ≠ 0) (hc : p = (s.prev_phys + PAGE_SIZE) % WORD) :
    ProcReport.step s p = ⟨s.total + 1, s.contig + 1, s.noncontig, p⟩ := by
  obtain ⟨t, c, n, pr⟩ := s
  simp only at hf hc
  simp only [ProcReport.step]
  rw [if_neg hp, if_pos hf, if_pos hc]

lemma pr_step_noncontig {s : ProcReport.ScanState} {p : Nat} (hp : p ≠ 0)
    (hf : s.prev_phys ≠ 0) (hc : ¬ p = (s.prev_phys + PAGE_SIZE) % WORD) :
    ProcReport.step s p = ⟨s.total + 1, s.contig, s.noncontig + 1, p⟩ := by
  obtain ⟨t, c, n, pr⟩ := s
  simp only at hf hc
  simp [ProcReport.step, hp, hf, hc]

lemma sim_step {a : HelloModule.ScanState} {b : ProcReport.ScanState} (p : Nat)
    (h : Sim a b) : Sim (HelloModule.step a p) (ProcReport.step b p) := by
  obtain ⟨ht, hc, hrest⟩ := h
  by_cases hp : p = 0
  · subst hp
    rw [hm_step_zero, pr_step_zero]
    exact ⟨ht, hc, hrest⟩
  · rcases hrest with ⟨hfp, ht0, hc0, hn0, hn0', hpr0⟩ | ⟨hfp, hpr, hpr0, hn, htot⟩
    · rw [hm_step_first hp hfp, pr_step_fresh hp hpr0]
      refine ⟨by simp [ht], by simp [hc], Or.inr ?_⟩
      refine ⟨rfl, rfl, hp, by simp [hn0, hn0'], ?_⟩
      simp
      omega
    · by_cases hcc : (a.prev_phys + PAGE_SIZE) % WORD = p
      · have hcc' : p = (b.prev_phys + PAGE_SIZE) % WORD := by rw [← hpr]; exact hcc.symm
        rw [hm_step_contig hp hfp hcc, pr_step_contig hp hpr0 hcc']
        refine ⟨by simp [ht], by simp [hc], Or.inr ?_⟩
        refine ⟨rfl, rfl, hp, by simp [hn], by simp; omega⟩
      · have hcc' : ¬ p = (b.prev_phys + PAGE_SIZE) % WORD := by
          rw [← hpr]; exact fun he => hcc he.symm
        rw [hm_step_noncontig hp hfp hcc, pr_step_noncontig hp hpr0 hcc']
        refine ⟨by simp [ht], by simp [hc], Or.inr ?_⟩
        refine ⟨rfl, rfl, hp, by simp [hn], by simp; omega⟩

lemma sim_foldl : ∀ (l : List Nat) (a : HelloModule.ScanState) (b : ProcReport.ScanState),
    Sim a b → Sim (l.foldl HelloModule.step a) (l.foldl ProcReport.step b)
  | [], _, _, h => h
  | p :: l, a, b, h =>
      sim_foldl l (HelloModule.step a p) (ProcReport.step b p) (sim_step p h)

lemma countList_eq (l : List Nat) : HelloModule.countList l = ProcReport.countList l := by
  have h := sim_foldl l HelloModule.initState ProcReport.initState
    (by simp [Sim, HelloModule.initState, ProcReport.initState])
  simp only [HelloModule.countList, ProcReport.countList]
  obtain ⟨ht, hc, hrest⟩ := h
  rcases hrest with ⟨_, ht0, hc0, hn0, hn0', _⟩ | ⟨_, _, _, hn, htot⟩
  · have hbt : (l.foldl ProcReport.step ProcReport.initState).total = 0 := by omega
    have hbc : (l.foldl ProcReport.step ProcReport.initState).contig = 0 := by omega
    simp [ProcReport.adjust, hbt, ht0, hc0, hn0, hn0', hbc]
  · have hcond : 0 < (l.foldl ProcReport.step ProcReport.initState).total ∧
        (l.foldl ProcReport.step ProcReport.initState).contig +
          (l.foldl ProcReport.step ProcReport.initState).noncontig <
          (l.foldl ProcReport.step ProcReport.initState).total := by omega
    simp [ProcReport.adjust, hcond, ht, hc, hn]

lemma hm_foldl_filter : ∀ (l : List Nat) (s : HelloModule.ScanState),
    l.foldl HelloModule.step s = (l.filter (fun p => p != 0)).foldl HelloModule.step s := by
  intro l
  induction l with
  | nil => intro s; rfl
  | cons p l ih =>
      intro s
      by_cases hp : p = 0
      · subst hp
        simp [hm_step_zero, ih s]
      · rw [List.filter_cons_of_pos (by simp [hp]), List.foldl_cons, List.foldl_cons]
        exact ih (HelloModule.step s p)

lemma pr_foldl_filter : ∀ (l : List Nat) (s : ProcReport.ScanState),
    l.foldl ProcReport.step s = (l.filter (fun p => p != 0)).foldl ProcReport.step s := by
  intro l
  induction l with
  | nil => intro s; rfl
  | cons p l ih =>
      intro s
      by_cases hp : p = 0
      · subst hp
        simp [pr_step_zero, ih s]
      · rw [List.filter_cons_of_pos (by simp [hp]), List.foldl_cons, List.foldl_cons]
        exact ih (ProcReport.step s p)

lemma hm_foldl_zeros {l : List Nat} (h : ∀ p ∈ l, p = 0) (s : HelloModule.ScanState) :
    l.foldl HelloModule.step s = s := by
  induction l generalizing s with
  | nil => rfl
  | cons p l ih =>
      have hp : p = 0 := h p (by simp)
      subst hp
      rw [List.foldl_cons, hm_step_zero]
      exact ih (fun q hq => h q (by simp [hq])) s

lemma pr_foldl_zeros {l : List Nat} (h : ∀ p ∈ l, p = 0) (s : ProcReport.ScanState) :
    l.foldl ProcReport.step s = s := by
  induction l generalizing s with
  | nil => rfl
  | cons p l ih =>
      have hp : p = 0 := h p (by simp)
      subst hp
      rw [List.foldl_cons, pr_step_zero]
      exact ih (fun q hq => h q (by simp [hq])) s

lemma counters_add_zero (a : Counters) : a.add Counters.zero = a := by
  obtain ⟨x, y, z⟩ := a
  simp [Counters.add, Counters.zero]

lemma counters_zero_add (a : Counters) : Counters.zero.add a = a := by
  obtain ⟨x, y, z⟩ := a
  simp [Counters.add, Counters.zero]

lemma counters_add_assoc (a b c : Counters) : (a.add b).add c = a.add (b.add c) := by
  obtain ⟨x, y, z⟩ := a
  obtain ⟨x', y', z'⟩ := b
  obtain ⟨x'', y'', z''⟩ := c
  simp [Counters.add, Nat.add_assoc]

lemma counters_foldl_add (l : List Counters) :
    ∀ a : Counters, l.foldl Counters.add a = a.add (sumCounters l) := by
  induction l with
  | nil => intro a; simp [sumCounters, counters_add_zero]
  | cons x l ih =>
      intro a
      rw [List.foldl_cons, ih (a.add x)]
      have : sumCounters (x :: l) = x.add (sumCounters l) := by
        rw [sumCounters, List.foldl_cons, counters_zero_add, ih x]
      rw [this, counters_add_assoc]

lemma sumCounters_cons (x : Counters) (l : List Counters) :
    sumCounters (x :: l) = x.add (sumCounters l) := by
  rw [sumCounters, List.foldl_cons, counters_zero_add, counters_foldl_add l x]

lemma report_foldl_aux (count : TaskStruct → Counters) :
    ∀ (tasks : List TaskStruct) (rows : List (Int × String × Counters)) (tot : Counters),
      tasks.foldl
        (fun acc task =>
          if decide (650 < task.pid) then
            (acc.1 ++ [(task.pid, task.comm, count task)], acc.2.add (count task))
          else acc)
        (rows, tot)
      = (rows ++ (tasks.filter (fun t => decide (650 < t.pid))).map
            (fun t => (t.pid, t.comm, count t)),
         tot.add (sumCounters ((tasks.filter (fun t => decide (650 < t.pid))).map count))) := by
  intro tasks
  induction tasks with
  | nil => intro rows tot; simp [sumCounters, counters_add_zero]
  | cons t ts ih =>
      intro rows tot
      by_cases hpid : 650 < t.pid
      · rw [List.foldl_cons]
        rw [if_pos (by simp [hpid])]
        rw [ih (rows ++ [(t.pid, t.comm, count t)]) (tot.add (count t))]
        rw [List.filter_cons_of_pos (by simp [hpid])]
        simp [sumCounters_cons, counters_add_assoc]
      · rw [List.foldl_cons]
        rw [if_neg (by simp [hpid])]
        rw [ih rows tot]
        rw [List.filter_cons_of_neg (by simp [hpid])]

lemma pr_countList_spec (l : List Nat) :
    (ProcReport.countList l).contig + (ProcReport.countList l).noncontig
      = (ProcReport.countList l).total ∧
    (0 < (ProcReport.countList l).total → 1 ≤ (ProcReport.countList l).noncontig) := by
  rw [← countList_eq]
  exact hm_countList_spec l

lemma hm_countTask_spec (t : TaskStruct) :
    (HelloModule.countTask t).contig + (HelloModule.countTask t).noncontig
      = (HelloModule.countTask t).total ∧
    (0 < (HelloModule.countTask t).total → 1 ≤ (HelloModule.countTask t).noncontig) := by
  rcases ht : t.mm with _ | mm
  · simp [HelloModule.countTask, ht, Counters.zero]
  · simp only [HelloModule.countTask, ht]
    exact hm_countList_spec _

lemma pr_countTask_spec (t : TaskStruct) :
    (ProcReport.count_allocated_pages t).contig + (ProcReport.count_allocated_pages t).noncontig
      = (ProcReport.count_allocated_pages t).total ∧
    (0 < (ProcReport.count_allocated_pages t).total →
      1 ≤ (ProcReport.count_allocated_pages t).noncontig) := by
  rcases ht : t.mm with _ | mm
  · simp [ProcReport.count_allocated_pages, ht, ProcReport.adjust, ProcReport.initState]
  · by_cases hm : mm.mmap = []
    · simp [ProcReport.count_allocated_pages, ht, hm, ProcReport.adjust, ProcReport.initState]
    · simp only [ProcReport.count_allocated_pages, ht]
      rw [if_neg hm]
      exact pr_countList_spec _

lemma counters_one {c : Counters} (hsum : c.contig + c.noncontig = c.total)
    (hpos : 0 < c.total → 1 ≤ c.noncontig) (h1 : c.total = 1) : c = ⟨1, 0, 1⟩ := by
  obtain ⟨x, y, z⟩ := c
  simp only at hsum hpos h1
  simp only [Counters.mk.injEq]
  have := hpos (by omega)
  omega

/-- Claim C1: in both drafts the first resolved page of a process is classified
non-contiguous: a process with exactly one resolved page yields
{total 1, contig 0, noncontig 1}, and whenever total > 0 the non-contiguous
count is at least 1. -/
theorem claim1_first_resolved_page_noncontiguous (t : TaskStruct) :
    ((HelloModule.countTask t).total = 1 → HelloModule.countTask t = ⟨1, 0, 1⟩) ∧
    (0 < (HelloModule.countTask t).total → 1 ≤ (HelloModule.countTask t).noncontig) ∧
    ((ProcReport.count_allocated_pages t).total = 1 →
        ProcReport.count_allocated_pages t = ⟨1, 0, 1⟩) ∧
    (0 < (ProcReport.count_allocated_pages t).total →
        1 ≤ (ProcReport.count_allocated_pages t).noncontig) := by
  obtain ⟨h1, h2⟩ := hm_countTask_spec t
  obtain ⟨h3, h4⟩ := pr_countTask_spec t
  exact ⟨fun h => counters_one h1 h2 h, h2, fun h => counters_one h3 h4 h, h4⟩

theorem claim1_witness :
    (HelloModule.countTask sampleTask).total = 1 ∧
    HelloModule.countTask sampleTask = ⟨1, 0, 1⟩ ∧
    ProcReport.count_allocated_pages sampleTask = ⟨1, 0, 1⟩ :=
  ⟨by decide,
   (claim1_first_resolved_page_noncontiguous sampleTask).1 (by decide),
   (claim1_first_resolved_page_noncontiguous sampleTask).2.2.1 (by decide)⟩

/-- Claim C2: the inline first-page rule of procReport_init and the conditional
post-scan rule of count_allocated_pages produce identical counters on every
sequence of translation results (0 encoding unmapped) — the equivalence is
unconditional, not limited to runs with exactly one gap. -/
theorem claim2_inline_and_posthoc_variants_equal (l : List Nat) :
    HelloModule.countList l = ProcReport.countList l :=
  countList_eq l

/-- Claim C3: counters produced by a per-process scan, in either draft, are
non-negative, satisfy contig + noncontig = total whenever total > 0, and
are all zero when total = 0. -/
theorem claim3_counter_invariants (t : TaskStruct) :
    (0 ≤ (HelloModule.countTask t).total ∧ 0 ≤ (HelloModule.countTask t).contig ∧
      0 ≤ (HelloModule.countTask t).noncontig) ∧
    (0 < (HelloModule.countTask t).total →
      (HelloModule.countTask t).contig + (HelloModule.countTask t).noncontig
        = (HelloModule.countTask t).total) ∧
    ((HelloModule.countTask t).total = 0 →
      (HelloModule.countTask t).contig = 0 ∧ (HelloModule.countTask t).noncontig = 0) ∧
    (0 ≤ (ProcReport.count_allocated_pages t).total ∧
      0 ≤ (ProcReport.count_allocated_pages t).contig ∧
      0 ≤ (ProcReport.count_allocated_pages t).noncontig) ∧
    (0 < (ProcReport.count_allocated_pages t).total →
      (ProcReport.count_allocated_pages t).contig
          + (ProcReport.count_allocated_pages t).noncontig
        = (ProcReport.count_allocated_pages t).total) ∧
    ((ProcReport.count_allocated_pages t).total = 0 →
      (ProcReport.count_allocated_pages t).contig = 0 ∧
        (ProcReport.count_allocated_pages t).noncontig = 0) := by
  obtain ⟨h1, _⟩ := hm_countTask_spec t
  obtain ⟨h3, _⟩ := pr_countTask_spec t
  refine ⟨⟨Nat.zero_le _, Nat.zero_le _, Nat.zero_le _⟩, fun _ => h1, fun h => ?_,
    ⟨Nat.zero_le _, Nat.zero_le _, Nat.zero_le _⟩, fun _ => h3, fun h => ?_⟩
  · omega
  · omega

theorem claim3_witness :
    0 < (HelloModule.countTask sampleTask).total ∧
    (HelloModule.countTask sampleTask).contig + (HelloModule.countTask sampleTask).noncontig
      = (HelloModule.countTask sampleTask).total ∧
    (ProcReport.count_allocated_pages sampleTask).contig
        + (ProcReport.count_allocated_pages sampleTask).noncontig
      = (ProcReport.count_allocated_pages sampleTask).total :=
  ⟨by decide,
   (claim3_counter_invariants sampleTask).2.1 (by decide),
   (claim3_counter_invariants sampleTask).2.2.2.2.1 (by decide)⟩

/-- Claim C4: in both drafts virt2phys returns 0 (Unmapped) as soon as any level
of the walk fails — pgd/p4d/pud/pmd absent or bad, pte_offset_map NULL,
and at the leaf a non-present pte (helloModule.c) or a NULL page
(procReport.c) — whatever the deeper levels hold; the function is total, so
no fault is ever raised. -/
theorem claim4_walk_failure_yields_unmapped (w : PageWalk) (vaddr : Nat) :
    ((w.pgd_ok = false ∨ w.p4d_ok = false ∨ w.pud_ok = false ∨ w.pmd_ok = false ∨
        w.pte_mapped = false ∨ w.pte_present = false) →
      HelloModule.virt2phys w vaddr = 0) ∧
    ((w.pgd_ok = false ∨ w.p4d_ok = false ∨ w.pud_ok = false ∨ w.pmd_ok = false ∨
        w.pte_mapped = false ∨ w.pte_page = none) →
      ProcReport.virt2phys w vaddr = 0) := by
  obtain ⟨g, q, u, m, mp, pres, v, pg⟩ := w
  constructor
  · rintro (h | h | h | h | h | h) <;> simp only at h <;> subst h <;>
      simp [HelloModule.virt2phys]
  · rintro (h | h | h | h | h | h) <;> simp only at h <;> subst h <;>
      simp [ProcReport.virt2phys]

theorem claim4_witness :
    HelloModule.virt2phys ⟨false, true, true, true, true, true, 4096, some 1⟩ 0 = 0 ∧
    ProcReport.virt2phys ⟨false, true, true, true, true, true, 4096, some 1⟩ 0 = 0 :=
  ⟨(claim4_walk_failure_yields_unmapped _ 0).1 (Or.inl rfl),
   (claim4_walk_failure_yields_unmapped _ 0).2 (Or.inl rfl)⟩

/-- Claim C6: on a page-aligned virtual address, a successful (nonzero)
translation returns exactly the leaf entry's frame number times the page
size, a multiple of PAGE_SIZE with no intra-page offset: in helloModule.c
the frame number is the pte value's upper bits, in procReport.c it is the
pfn behind pte_page. -/
theorem claim6_resolved_address_frame_aligned (w : PageWalk) (vaddr : Nat)
    (hal : vaddr % PAGE_SIZE = 0) :
    (HelloModule.virt2phys w vaddr ≠ 0 →
      HelloModule.virt2phys w vaddr = w.pte_val % WORD / PAGE_SIZE * PAGE_SIZE ∧
      PAGE_SIZE ∣ HelloModule.virt2phys w vaddr) ∧
    (ProcReport.virt2phys w vaddr ≠ 0 →
      ∃ pfn, w.pte_page = some pfn ∧
        ProcReport.virt2phys w vaddr = pfn * PAGE_SIZE % WORD ∧
        PAGE_SIZE ∣ ProcReport.virt2phys w vaddr) := by
  obtain ⟨g, q, u, m, mp, pres, v, pg⟩ := w
  constructor
  · intro hnz
    simp only [HelloModule.virt2phys] at hnz ⊢
    split_ifs at hnz ⊢ <;> try exact absurd rfl hnz
    rw [hal, Nat.add_zero]
    exact ⟨rfl, dvd_mul_left _ _⟩
  · intro hnz
    rcases pg with _ | pfn
    · simp [ProcReport.virt2phys] at hnz
    · refine ⟨pfn, rfl, ?_⟩
      simp only [ProcReport.virt2phys] at hnz ⊢
      split_ifs at hnz ⊢ <;> try exact absurd rfl hnz
      refine ⟨rfl, ?_⟩
      exact (Nat.dvd_mod_iff (by decide)).mpr (dvd_mul_left _ _)

theorem claim6_witness :
    0 % PAGE_SIZE = 0 ∧
    HelloModule.virt2phys sampleWalk 0 ≠ 0 ∧
    HelloModule.virt2phys sampleWalk 0
      = sampleWalk.pte_val % WORD / PAGE_SIZE * PAGE_SIZE ∧
    ProcReport.virt2phys sampleWalk 0 ≠ 0 ∧
    PAGE_SIZE ∣ ProcReport.virt2phys sampleWalk 0 :=
  ⟨by decide, by decide,
   ((claim6_resolved_address_frame_aligned sampleWalk 0 (by decide)).1 (by decide)).1,
   by decide,
   by
     obtain ⟨pfn, _, _, hdvd⟩ :=
       (claim6_resolved_address_frame_aligned sampleWalk 0 (by decide)).2 (by decide)
     exact hdvd⟩

/-- Claim C5: unmapped pages (translation result 0) are skipped entirely by both
scans — the counters of any result sequence equal those of the sequence
with the zeros removed, so prev_phys is never reset by an unmapped page —
and a non-first resolved page is classified contiguous exactly when its
frame address equals the previous resolved frame address plus PAGE_SIZE
(64-bit arithmetic), however many unmapped pages lay in between. -/
theorem claim5_unmapped_pages_skipped (l : List Nat) :
    HelloModule.countList l = HelloModule.countList (l.filter (fun p => p != 0)) ∧
    ProcReport.countList l = ProcReport.countList (l.filter (fun p => p != 0)) ∧
    (∀ (s : HelloModule.ScanState) (p : Nat), p ≠ 0 → s.first_page = false →
      ((HelloModule.step s p).contig = s.contig + 1 ↔
        p = (s.prev_phys + PAGE_SIZE) % WORD)) ∧
    (∀ (s : ProcReport.ScanState) (p : Nat), p ≠ 0 → s.prev_phys ≠ 0 →
      ((ProcReport.step s p).contig = s.contig + 1 ↔
        p = (s.prev_phys + PAGE_SIZE) % WORD)) := by
  refine ⟨?_, ?_, ?_, ?_⟩
  · simp only [HelloModule.countList]
    rw [hm_foldl_filter l HelloModule.initState]
  · simp only [ProcReport.countList]
    rw [pr_foldl_filter l ProcReport.initState]
  · intro s p hp hf
    by_cases hc : (s.prev_phys + PAGE_SIZE) % WORD = p
    · rw [hm_step_contig hp hf hc]
      exact iff_of_true rfl hc.symm
    · rw [hm_step_noncontig hp hf hc]
      exact iff_of_false (by simp) (fun he => hc he.symm)
  · intro s p hp hf
    by_cases hc : p = (s.prev_phys + PAGE_SIZE) % WORD
    · rw [pr_step_contig hp hf hc]
      exact iff_of_true rfl hc
    · rw [pr_step_noncontig hp hf hc]
      exact iff_of_false (by simp) hc

theorem claim5_witness :
    HelloModule.countList [0, 4096, 0, 8192]
      = HelloModule.countList (List.filter (fun p => p != 0) [0, 4096, 0, 8192]) ∧
    ((HelloModule.step ⟨1, 0, 1, 4096, false⟩ 8192).contig = 0 + 1 ↔
      8192 = (4096 + PAGE_SIZE) % WORD) :=
  ⟨(claim5_unmapped_pages_skipped [0, 4096, 0, 8192]).1,
   (claim5_unmapped_pages_skipped []).2.2.1 ⟨1, 0, 1, 4096, false⟩ 8192 (by decide) rfl⟩

/-- Claim C7: the grand totals are the field-wise sum of the counters of exactly
the tasks whose pid exceeds 650, and the emitted rows are exactly those
tasks' (pid, comm, counters) tuples in iteration order; excluded tasks
contribute nothing, in both drafts. -/
theorem claim7_totals_are_sum_of_included (tasks : List TaskStruct) :
    HelloModule.procReport_init tasks
      = ((tasks.filter (fun t => decide (650 < t.pid))).map
            (fun t => (t.pid, t.comm, HelloModule.countTask t)),
         sumCounters ((tasks.filter (fun t => decide (650 < t.pid))).map
            HelloModule.countTask)) ∧
    ProcReport.generate_report tasks
      = ((tasks.filter (fun t => decide (650 < t.pid))).map
            (fun t => (t.pid, t.comm, ProcReport.count_allocated_pages t)),
         sumCounters ((tasks.filter (fun t => decide (650 < t.pid))).map
            ProcReport.count_allocated_pages)) := by
  constructor
  · unfold HelloModule.procReport_init
    rw [report_foldl_aux HelloModule.countTask tasks [] Counters.zero]
    simp [counters_zero_add]
  · unfold ProcReport.generate_report
    rw [report_foldl_aux ProcReport.count_allocated_pages tasks [] Counters.zero]
    simp [counters_zero_add]

lemma hm_countList_zeros {l : List Nat} (h : ∀ p ∈ l, p = 0) :
    HelloModule.countList l = Counters.zero := by
  simp only [HelloModule.countList]
  rw [hm_foldl_zeros h]
  rfl

lemma pr_countList_zeros {l : List Nat} (h : ∀ p ∈ l, p = 0) :
    ProcReport.countList l = Counters.zero := by
  simp only [ProcReport.countList]
  rw [pr_foldl_zeros h]
  rfl

/-- Claim C8: a task without an mm, or with an mm whose VMA list is empty, or
none of whose pages resolve, yields {0, 0, 0} in both drafts — exactly the
result for an address space with zero regions. -/
theorem claim8_absent_or_empty_space_zero (t : TaskStruct) :
    (t.mm = none →
      HelloModule.countTask t = Counters.zero ∧
      ProcReport.count_allocated_pages t = Counters.zero) ∧
    (∀ mm, t.mm = some mm → mm.mmap = [] →
      HelloModule.countTask t = Counters.zero ∧
      ProcReport.count_allocated_pages t = Counters.zero) ∧
    (∀ mm, t.mm = some mm → (∀ p ∈ HelloModule.physSeq mm, p = 0) →
      HelloModule.countTask t = Counters.zero) ∧
    (∀ mm, t.mm = some mm → (∀ p ∈ ProcReport.physSeq mm, p = 0) →
      ProcReport.count_allocated_pages t = Counters.zero) := by
  refine ⟨?_, ?_, ?_, ?_⟩
  · intro h
    constructor
    · simp [HelloModule.countTask, h, Counters.zero]
    · simp [ProcReport.count_allocated_pages, h, ProcReport.adjust, ProcReport.initState,
        Counters.zero]
  · intro mm hmm hempty
    constructor
    · simp only [HelloModule.countTask, hmm]
      exact hm_countList_zeros (by simp [HelloModule.physSeq, hempty])
    · simp only [ProcReport.count_allocated_pages, hmm]
      rw [if_pos hempty]
      simp [ProcReport.adjust, ProcReport.initState, Counters.zero]
  · intro mm hmm hzero
    simp only [HelloModule.countTask, hmm]
    exact hm_countList_zeros hzero
  · intro mm hmm hzero
    simp only [ProcReport.count_allocated_pages, hmm]
    by_cases hempty : mm.mmap = []
    · rw [if_pos hempty]
      simp [ProcReport.adjust, ProcReport.initState, Counters.zero]
    · rw [if_neg hempty]
      exact pr_countList_zeros hzero

theorem claim8_witness :
    HelloModule.countTask ⟨700, "a", none⟩ = Counters.zero ∧
    ProcReport.count_allocated_pages ⟨700, "a", none⟩ = Counters.zero :=
  (claim8_absent_or_empty_space_zero ⟨700, "a", none⟩).1 rfl

/-- Claim C9: procReport.c's virt2phys maps any page whose resolved physical
address equals 70368744173568 (0x400000000000) to 0, the unmapped encoding,
so such a page is indistinguishable from an unmapped one and is excluded
from every counter. -/
theorem claim9_sentinel_address_reported_unmapped (w : PageWalk) (vaddr : Nat)
    (pfn : Nat) (hpg : w.pte_page = some pfn)
    (hs : pfn * PAGE_SIZE % WORD = 70368744173568) :
    ProcReport.virt2phys w vaddr = 0 := by
  obtain ⟨g, q, u, m, mp, pres, v, pg⟩ := w
  simp only at hpg
  subst hpg
  simp [ProcReport.virt2phys, hs]

theorem claim9_witness :
    ProcReport.virt2phys ⟨true, true, true, true, true, true, 0, some 17179869183⟩ 0 = 0 :=
  claim9_sentinel_address_reported_unmapped _ 0 17179869183 rfl (by decide)

/-- Claim C10: both drafts encode Unmapped as the physical address 0, so a
successfully walked page whose frame address is 0 is returned as 0 —
indistinguishable from Unmapped — and the scans treat a 0 translation
result as unmapped, leaving every counter and prev_phys untouched. -/
theorem claim10_resolved_zero_equals_unmapped (w : PageWalk) (vaddr : Nat)
    (hal : vaddr % PAGE_SIZE = 0) :
    (w.pte_val % WORD < PAGE_SIZE → HelloModule.virt2phys w vaddr = 0) ∧
    (w.pte_page = some 0 → ProcReport.virt2phys w vaddr = 0) ∧
    (∀ s : HelloModule.ScanState, HelloModule.step s 0 = s) ∧
    (∀ s : ProcReport.ScanState, ProcReport.step s 0 = s) := by
  refine ⟨?_, ?_, hm_step_zero, pr_step_zero⟩
  · intro hv
    obtain ⟨g, q, u, m, mp, pres, v, pg⟩ := w
    simp only at hv
    have hdiv : v % WORD / PAGE_SIZE = 0 := Nat.div_eq_of_lt hv
    simp [HelloModule.virt2phys, hdiv, hal]
  · intro hpg
    obtain ⟨g, q, u, m, mp, pres, v, pg⟩ := w
    simp only at hpg
    subst hpg
    simp [ProcReport.virt2phys]

theorem claim10_witness :
    HelloModule.virt2phys ⟨true, true, true, true, true, true, 5, some 0⟩ 0 = 0 ∧
    ProcReport.virt2phys ⟨true, true, true, true, true, true, 5, some 0⟩ 0 = 0 :=
  ⟨(claim10_resolved_zero_equals_unmapped _ 0 (by decide)).1 (by decide),
   (claim10_resolved_zero_equals_unmapped _ 0 (by decide)).2.1 rfl⟩
